import Mathlib

/-!
Verification of the discussion-discovery pipeline in `src/main.py`.

Python strings are modelled as `List Char` (the claims only involve ASCII
text, so `Char.toLower` coincides with Python's `str.lower` on every input
considered).  Python exceptions raised by the external Reddit client are
modelled with `Except`: each client operation returns `Except ε (List Post)`
and the pipeline functions propagate errors exactly where the Python call
stack would.
-/

/-- Python's notion of whitespace for `str.split` / `str.strip` (ASCII part). -/
def pyIsSpace (c : Char) : Bool :=
  c = ' ' || c = '\t' || c = '\n' || c = '\r' || c = '\x0b' || c = '\x0c'

/-- Python `str.lower()` applied characterwise (ASCII). -/
def pyLower (s : List Char) : List Char :=
  s.map Char.toLower

/-- Python `str.strip()`: remove leading and trailing whitespace. -/
def pyStrip (s : List Char) : List Char :=
  ((s.dropWhile pyIsSpace).reverse.dropWhile pyIsSpace).reverse

/-- Python `str.rstrip()`: remove trailing whitespace. -/
def pyRstrip (s : List Char) : List Char :=
  (s.reverse.dropWhile pyIsSpace).reverse

/-- Worker for `pySplit`; `cur` holds the current word, reversed. -/
def splitAux : List Char → List Char → List (List Char)
  | [], cur => if cur = [] then [] else [cur.reverse]
  | c :: rest, cur =>
    if pyIsSpace c then
      if cur = [] then splitAux rest [] else cur.reverse :: splitAux rest []
    else
      splitAux rest (c :: cur)

/-- Python `str.split()` with no argument: split on runs of whitespace,
dropping empty words (hence also leading/trailing whitespace). -/
def pySplit (s : List Char) : List (List Char) :=
  splitAux s []

/-- Python `" ".join(text.split())`, the whitespace collapsing used by `_truncate`. -/
def pyCollapse (s : List Char) : List Char :=
  List.intercalate [' '] (pySplit s)

/-- Python's substring test `needle in hay`. -/
def isSubstr (needle : List Char) : List Char → Bool
  | [] => needle.isEmpty
  | c :: rest => needle.isPrefixOf (c :: rest) || isSubstr needle rest

/-- The proposition "`n` occurs as a contiguous substring of `h`". -/
def SubstrOf (n h : List Char) : Prop :=
  ∃ s t, s ++ n ++ t = h

/-- A Reddit submission as consumed by the pipeline (`praw.models.Submission`
attributes that `src/main.py` reads).  `selftext` is `none` for an absent
body; `author` is `none` for a deleted/anonymous author (printed `u/None`). -/
structure Post where
  title : List Char
  selftext : Option (List Char)
  author : Option (List Char)
  score : Int
  num_comments : Int
  created_utc : Nat
  permalink : List Char
  subredditName : List Char
deriving DecidableEq, Repr

/-- Body text exactly as `src/main.py` reads it: `post.selftext or ""`. -/
def bodyText (p : Post) : List Char :=
  p.selftext.getD []

/-- The external Source Client (a `praw.Reddit` handle): four sort-ordered
listing operations per community, and one per-community search operation
taking (community, query, sort, limit).  Each call may fail with an
upstream error of type `ε` (a raised exception in the Python code). -/
structure RedditClient (ε : Type) where
  hot : List Char → Int → Except ε (List Post)
  new : List Char → Int → Except ε (List Post)
  top : List Char → Int → Except ε (List Post)
  rising : List Char → Int → Except ε (List Post)
  search : List Char → List Char → List Char → Int → Except ε (List Post)

def sHot : List Char := "hot".toList
def sNew : List Char := "new".toList
def sTop : List Char := "top".toList
def sRising : List Char := "rising".toList
def sRelevance : List Char := "relevance".toList

/-- Embeds `fetch_posts` (src/main.py:79-105): dispatch on `sort` through the
`sort_methods` dict, with `dict.get(sort, subreddit.hot)` falling back to the
`hot` listing for any unrecognized sort. -/
def fetch_posts {ε : Type} (reddit : RedditClient ε) (subreddit_name : List Char)
    (sort : List Char) (limit : Int) : Except ε (List Post) :=
  let fetcher :=
    if sort = sHot then reddit.hot
    else if sort = sNew then reddit.new
    else if sort = sTop then reddit.top
    else if sort = sRising then reddit.rising
    else reddit.hot
  fetcher subreddit_name limit

/-- Embeds `fetch_posts_from_multiple` (src/main.py:108-132): iterate over the
community names in order, strip each, skip the blank ones, fetch and extend
the accumulator.  A raised upstream error aborts the loop at that community. -/
def fetch_posts_from_multiple {ε : Type} (reddit : RedditClient ε)
    (subreddit_names : List (List Char)) (sort : List Char) (limit : Int) :
    Except ε (List Post) :=
  match subreddit_names with
  | [] => Except.ok []
  | n :: rest =>
    if pyStrip n = [] then
      fetch_posts_from_multiple reddit rest sort limit
    else
      match fetch_posts reddit (pyStrip n) sort limit with
      | Except.error e => Except.error e
      | Except.ok posts =>
        match fetch_posts_from_multiple reddit rest sort limit with
        | Except.error e => Except.error e
        | Except.ok acc => Except.ok (posts ++ acc)

/-- Loop body of `search_discussions`, after the sort has been resolved. -/
def searchLoop {ε : Type} (reddit : RedditClient ε) (query : List Char)
    (subreddit_names : List (List Char)) (search_sort : List Char) (limit : Int) :
    Except ε (List Post) :=
  match subreddit_names with
  | [] => Except.ok []
  | n :: rest =>
    if pyStrip n = [] then
      searchLoop reddit query rest search_sort limit
    else
      match reddit.search (pyStrip n) query search_sort limit with
      | Except.error e => Except.error e
      | Except.ok results =>
        match searchLoop reddit query rest search_sort limit with
        | Except.error e => Except.error e
        | Except.ok acc => Except.ok (results ++ acc)

/-- Embeds `search_discussions` (src/main.py:135-167): resolve
`search_sort = sort if sort in ("relevance", "hot", "top", "new") else "relevance"`,
then search each non-blank community in order with the resolved sort. -/
def search_discussions {ε : Type} (reddit : RedditClient ε) (query : List Char)
    (subreddit_names : List (List Char)) (sort : List Char) (limit : Int) :
    Except ε (List Post) :=
  let search_sort :=
    if sort ∈ ([sRelevance, sHot, sTop, sNew] : List (List Char)) then sort
    else sRelevance
  searchLoop reddit query subreddit_names search_sort limit

/-- Embeds `filter_by_keywords` (src/main.py:175-202): identity on an empty
keyword list; otherwise keep the posts for which some `kw.lower().strip()`
occurs in `post.title.lower()` or in `(post.selftext or "").lower()`. -/
def filter_by_keywords (posts : List Post) (keywords : List (List Char)) :
    List Post :=
  if keywords = [] then posts
  else
    let keywords_lower := keywords.map fun kw => pyStrip (pyLower kw)
    posts.filter fun post =>
      keywords_lower.any fun kw =>
        isSubstr kw (pyLower post.title) || isSubstr kw (pyLower (bodyText post))

def BODY_PREVIEW_LENGTH : Nat := 200

/-- Embeds `_truncate` (src/main.py:210-217): empty (falsy) text gives `""`;
otherwise collapse whitespace via `" ".join(text.split())`, return the result
whole when it fits in `max_length`, else `text[:max_length].rstrip() + " ..."`. -/
def pyTruncate (text : List Char) (max_length : Nat := BODY_PREVIEW_LENGTH) :
    List Char :=
  if text = [] then []
  else
    let collapsed := pyCollapse text
    if collapsed.length ≤ max_length then collapsed
    else pyRstrip (collapsed.take max_length) ++ (" ...").toList

/-- Python `f"{s:^w}"` centering (extra fill goes to the right). -/
def pyCenter (s : List Char) (w : Nat) : List Char :=
  if w ≤ s.length then s
  else
    let pad := w - s.length
    List.replicate (pad / 2) ' ' ++ s ++ List.replicate (pad - pad / 2) ' '

def natChars (n : Nat) : List Char :=
  (Nat.repr n).toList

def intChars (i : Int) : List Char :=
  (toString i).toList

/-- Zero-padded decimal rendering, as in `strftime` fields. -/
def padNum (w : Nat) (n : Nat) : List Char :=
  List.replicate (w - (natChars n).length) '0' ++ natChars n

/-- Embeds `datetime.fromtimestamp(ts, tz=timezone.utc)` followed by
`f"{created:%Y-%m-%d %H:%M:%S UTC}"` for a non-negative integral timestamp
(civil-from-days conversion in the proleptic Gregorian calendar). -/
def formatTimestamp (ts : Nat) : List Char :=
  let days := ts / 86400
  let secs := ts % 86400
  let z := days + 719468
  let era := z / 146097
  let doe := z % 146097
  let yoe := (doe - doe / 1460 + doe / 36524 - doe / 146096) / 365
  let doy := doe - (365 * yoe + yoe / 4 - yoe / 100)
  let mp := (5 * doy + 2) / 153
  let d := doy - (153 * mp + 2) / 5 + 1
  let m := if mp < 10 then mp + 3 else mp - 9
  let y := era * 400 + yoe + (if m ≤ 2 then 1 else 0)
  padNum 4 y ++ ("-").toList ++ padNum 2 m ++ ("-").toList ++ padNum 2 d
    ++ (" ").toList ++ padNum 2 (secs / 3600) ++ (":").toList
    ++ padNum 2 (secs % 3600 / 60) ++ (":").toList ++ padNum 2 (secs % 60)
    ++ (" UTC").toList

def titleLine (idx : Nat) (post : Post) : List Char :=
  ("  [").toList ++ natChars idx ++ ("] ").toList ++ post.title

def subLine (post : Post) : List Char :=
  ("      Sub    : r/").toList ++ post.subredditName

def authorLine (post : Post) : List Char :=
  ("      Author : u/").toList ++ (match post.author with
    | none => ("None").toList
    | some a => a)

def scoreLine (post : Post) : List Char :=
  ("      Score  : ").toList ++ intChars post.score
    ++ ("  |  Comments: ").toList ++ intChars post.num_comments

def dateLine (post : Post) : List Char :=
  ("      Date   : ").toList ++ formatTimestamp post.created_utc

def linkLine (post : Post) : List Char :=
  ("      Link   : https://reddit.com").toList ++ post.permalink

def sepLine : List Char :=
  ("      ").toList ++ List.replicate 72 '-'

/-- One iteration of the display loop of `display_posts` (src/main.py:237-256):
six metadata lines, then — only when `_truncate(post.selftext)` is non-empty —
the `textwrap.fill`-wrapped preview, then the separator line.  `wrapFill`
stands for the external `textwrap.fill(..., width=64, ...)` call.
Note `_truncate` treats an absent (`None`) body just like `""` (its falsy
test), so passing `bodyText post` is faithful. -/
def postBlock (wrapFill : List Char → List Char) (idx : Nat) (post : Post) :
    List (List Char) :=
  let preview := pyTruncate (bodyText post)
  [titleLine idx post, subLine post, authorLine post, scoreLine post,
   dateLine post, linkLine post]
  ++ (if preview = [] then [] else [wrapFill preview])
  ++ [sepLine]

def noResultsLine : List Char :=
  ("\n  No discussions found matching your criteria.\n").toList

/-- Embeds `display_posts` (src/main.py:220-258) as the list of arguments of
its successive `print` calls: the empty input prints only the no-results
notice; otherwise banner, centered title, banner, count line, the per-post
blocks (1-based indices), and the final blank `print()`. -/
def display_posts (wrapFill : List Char → List Char) (posts : List Post) :
    List (List Char) :=
  if posts = [] then [noResultsLine]
  else
    [('\n' :: List.replicate 72 '='),
     (' ' :: pyCenter (("DISCOVERED DISCUSSIONS").toList) 70),
     List.replicate 72 '=',
     ("  ").toList ++ natChars posts.length ++ (" result(s) found\n").toList]
    ++ (posts.enum.flatMap fun ip => postBlock wrapFill (ip.1 + 1) ip.2)
    ++ [[]]

/-- Embeds the browse path of `main` (src/main.py:330-340): retrieval, then
keyword filter, then presentation.  An upstream exception unwinds past the
filter and display stages, so no report lines exist for a failed run. -/
def browse_pipeline {ε : Type} (reddit : RedditClient ε)
    (wrapFill : List Char → List Char) (subreddit_names : List (List Char))
    (sort : List Char) (limit : Int) (keywords : List (List Char)) :
    Except ε (List (List Char)) :=
  match fetch_posts_from_multiple reddit subreddit_names sort limit with
  | Except.error e => Except.error e
  | Except.ok posts => Except.ok (display_posts wrapFill (filter_by_keywords posts keywords))

/-- Embeds the search path of `main` (src/main.py:330-340). -/
def search_pipeline {ε : Type} (reddit : RedditClient ε)
    (wrapFill : List Char → List Char) (query : List Char)
    (subreddit_names : List (List Char)) (sort : List Char) (limit : Int)
    (keywords : List (List Char)) : Except ε (List (List Char)) :=
  match search_discussions reddit query subreddit_names sort limit with
  | Except.error e => Except.error e
  | Except.ok posts => Except.ok (display_posts wrapFill (filter_by_keywords posts keywords))

instance exceptDecEq {ε α : Type} [DecidableEq ε] [DecidableEq α] :
    DecidableEq (Except ε α)
  | Except.ok x, Except.ok y =>
    if h : x = y then isTrue (congrArg Except.ok h)
    else isFalse fun hh => h (Except.ok.inj hh)
  | Except.ok _, Except.error _ => isFalse fun hh => Except.noConfusion hh
  | Except.error _, Except.ok _ => isFalse fun hh => Except.noConfusion hh
  | Except.error e, Except.error f =>
    if h : e = f then isTrue (congrArg Except.error h)
    else isFalse fun hh => h (Except.error.inj hh)

/-- Worker for `collapseRunsClaim`; the flag records whether the previous
character was whitespace (i.e. whether we are inside a run already). -/
def collapseAux : Bool → List Char → List Char
  | _, [] => []
  | prevSpace, c :: rest =>
    if pyIsSpace c then
      if prevSpace then collapseAux true rest
      else ' ' :: collapseAux true rest
    else c :: collapseAux false rest

/-- The collapsing rule exactly as the specification states it: replace every
run of whitespace with a single space (keeping a leading or trailing run as a
single space).  To be compared with `pyCollapse`, the rule the code uses. -/
def collapseRunsClaim (s : List Char) : List Char :=
  collapseAux false s

/-- The preview rule exactly as the claim states it: collapse runs of
whitespace, show in full when at most `BODY_PREVIEW_LENGTH` characters,
otherwise exactly the first `BODY_PREVIEW_LENGTH` characters with `" ..."`
appended.  To be compared with `pyTruncate`. -/
def claimedPreview (s : List Char) : List Char :=
  let c := collapseRunsClaim s
  if c.length ≤ BODY_PREVIEW_LENGTH then c
  else c.take BODY_PREVIEW_LENGTH ++ (" ...").toList

/-- The amended preview rule: collapse the body by splitting it on whitespace
and rejoining the words with single spaces (so leading and trailing
whitespace is dropped); a collapsed text of at most `BODY_PREVIEW_LENGTH`
characters is shown in full; a longer one is cut to its first
`BODY_PREVIEW_LENGTH` characters, trailing whitespace is removed from the
cut, and `" ..."` is appended. -/
def amendedPreview (s : List Char) : List Char :=
  let c := List.intercalate [' '] (pySplit s)
  if c.length ≤ BODY_PREVIEW_LENGTH then c
  else pyRstrip (c.take BODY_PREVIEW_LENGTH) ++ (" ...").toList

/-- The keep-condition of claim C1: some keyword, after lower-casing and
trimming, is a substring of the lower-cased title or of the lower-cased body
text (an absent body being the empty string). -/
def keywordMatches (keywords : List (List Char)) (p : Post) : Prop :=
  ∃ kw ∈ keywords,
    SubstrOf (pyStrip (pyLower kw)) (pyLower p.title) ∨
    SubstrOf (pyStrip (pyLower kw)) (pyLower (bodyText p))

/-- The community names that survive stripping and blank-skipping, in order;
these are exactly the arguments of the per-community client calls. -/
def nonblank (names : List (List Char)) : List (List Char) :=
  (names.map pyStrip).filter fun n => n ≠ []

/-- The sort modes `search_discussions` accepts without falling back. -/
def searchAllowed : List (List Char) :=
  [sRelevance, sHot, sTop, sNew]

/-- A deterministic post used to build concrete clients for witnesses. -/
def mkPost (n : List Char) : Post :=
  { title := n, selftext := none, author := none, score := 0,
    num_comments := 0, created_utc := 0, permalink := [], subredditName := n }

/-- A concrete client whose every listing call succeeds with one post that
records the community it was asked for. -/
def okClient : RedditClient (List Char) :=
  { hot := fun n _ => Except.ok [mkPost n]
  , new := fun n _ => Except.ok [mkPost n]
  , top := fun n _ => Except.ok [mkPost n]
  , rising := fun n _ => Except.ok [mkPost n]
  , search := fun n _ _ _ => Except.ok [mkPost n] }

/-- A concrete client whose every call raises. -/
def failClient : RedditClient (List Char) :=
  { hot := fun _ _ => Except.error (("boom").toList)
  , new := fun _ _ => Except.error (("boom").toList)
  , top := fun _ _ => Except.error (("boom").toList)
  , rising := fun _ _ => Except.error (("boom").toList)
  , search := fun _ _ _ _ => Except.error (("boom").toList) }

/-- A concrete post whose body is whitespace-only, for the C9 witness. -/
def blankBodyPost : Post :=
  { title := ("A title").toList, selftext := some (("   ").toList),
    author := some (("alice").toList), score := 3, num_comments := 1,
    created_utc := 1700000000, permalink := ("/r/python/1").toList,
    subredditName := ("python").toList }

/-- A concrete post whose title contains "AsyncIO", for the C1 witness. -/
def asyncPost : Post :=
  { title := ("AsyncIO for beginners").toList,
    selftext := some (("some body text").toList),
    author := some (("bob").toList), score := 5, num_comments := 2,
    created_utc := 1700000000, permalink := ("/r/python/2").toList,
    subredditName := ("python").toList }

theorem isPrefixOf_iff_exists (n : List Char) :
    ∀ h : List Char, n.isPrefixOf h = true ↔ ∃ t, n ++ t = h := by
  induction n with
  | nil =>
    intro h
    simp [List.isPrefixOf]
  | cons a n ih =>
    intro h
    cases h with
    | nil => simp [List.isPrefixOf]
    | cons c rest =>
      simp only [List.isPrefixOf, Bool.and_eq_true, beq_iff_eq, ih rest]
      constructor
      · rintro ⟨rfl, t, rfl⟩
        exact ⟨t, rfl⟩
      · rintro ⟨t, ht⟩
        simp only [List.cons_append, List.cons.injEq] at ht
        exact ⟨ht.1, t, ht.2⟩

theorem isSubstr_iff (n : List Char) :
    ∀ h : List Char, isSubstr n h = true ↔ SubstrOf n h := by
  intro h
  induction h with
  | nil =>
    simp only [isSubstr, List.isEmpty_iff, SubstrOf]
    constructor
    · rintro rfl
      exact ⟨[], [], rfl⟩
    · rintro ⟨s, t, hst⟩
      rcases List.append_eq_nil.mp hst with ⟨h1, _⟩
      exact (List.append_eq_nil.mp h1).2
  | cons c rest ih =>
    simp only [isSubstr, Bool.or_eq_true, isPrefixOf_iff_exists, ih, SubstrOf]
    constructor
    · rintro (⟨t, ht⟩ | ⟨s, t, hst⟩)
      · exact ⟨[], t, by simpa using ht⟩
      · exact ⟨c :: s, t, by simp [hst]⟩
    · rintro ⟨s, t, hst⟩
      cases s with
      | nil =>
        exact Or.inl ⟨t, by simpa using hst⟩
      | cons a s =>
        simp only [List.cons_append, List.cons.injEq] at hst
        exact Or.inr ⟨s, t, hst.2⟩

theorem sourceMatch_iff (K : List (List Char)) (p : Post) :
    ((K.map fun kw => pyStrip (pyLower kw)).any fun kw =>
      isSubstr kw (pyLower p.title) || isSubstr kw (pyLower (bodyText p))) = true
    ↔ keywordMatches K p := by
  simp only [List.any_eq_true, List.mem_map, Bool.or_eq_true, isSubstr_iff,
    keywordMatches]
  constructor
  · rintro ⟨kw', ⟨kw, hmem, rfl⟩, h⟩
    exact ⟨kw, hmem, h⟩
  · rintro ⟨kw, hmem, h⟩
    exact ⟨_, ⟨kw, hmem, rfl⟩, h⟩

/-- C4: filtering with an empty keyword set is the identity: for every post
sequence `P`, `filter_by_keywords P [] = P`. -/
theorem filter_empty_keywords_identity (P : List Post) :
    filter_by_keywords P [] = P := by
  simp [filter_by_keywords]

/-- C7: rendering an empty post sequence emits exactly the single
no-results notice — no report header, no count line, no per-post block. -/
theorem display_empty_no_results_notice (wrapFill : List Char → List Char) :
    display_posts wrapFill [] = [noResultsLine] := by
  simp [display_posts]

/-- C1: for every post sequence `P` and non-empty keyword list `K`,
`filter_by_keywords P K` is the order-preserving stable subsequence of `P`
(a sublist, computed by `List.filter`) keeping exactly the posts for which
some keyword of `K`, after lower-casing and trimming, is a case-insensitive
substring of the title or of the body text (absent body = empty string,
which a non-empty keyword never matches). -/
theorem filter_by_keywords_matches_keyword_semantics
    (P : List Post) (K : List (List Char)) (hK : K ≠ []) :
    List.Sublist (filter_by_keywords P K) P ∧
    ∀ matchB : Post → Bool, (∀ p, matchB p = true ↔ keywordMatches K p) →
      filter_by_keywords P K = P.filter matchB := by
  unfold filter_by_keywords
  rw [if_neg hK]
  refine ⟨List.filter_sublist P, ?_⟩
  intro matchB hmB
  apply List.filter_congr
  intro p _
  exact Bool.eq_iff_iff.mpr ((sourceMatch_iff K p).trans (hmB p).symm)

/-- Witness for C1 at a concrete post and keyword list. -/
theorem filter_keyword_semantics_witness :
    List.Sublist (filter_by_keywords [asyncPost] [("ASYNC").toList]) [asyncPost] ∧
    filter_by_keywords [asyncPost] [("ASYNC").toList] =
      List.filter
        (fun p => (([("ASYNC").toList]).map fun kw => pyStrip (pyLower kw)).any
          fun kw => isSubstr kw (pyLower p.title) || isSubstr kw (pyLower (bodyText p)))
        [asyncPost] := by
  have h := filter_by_keywords_matches_keyword_semantics [asyncPost]
    [("ASYNC").toList] (by decide)
  exact ⟨h.1, h.2 _ (fun p => sourceMatch_iff [("ASYNC").toList] p)⟩

set_option maxRecDepth 100000 in
/-- C2 as stated is false: the code applies `rstrip()` to the 200-character
cut before appending `" ..."`, and its collapsing step also drops leading
and trailing whitespace (both shown here at concrete inputs). -/
theorem truncate_claim_counterexample :
    pyTruncate (List.replicate 199 'a' ++ [' '] ++ List.replicate 5 'b') ≠
      claimedPreview (List.replicate 199 'a' ++ [' '] ++ List.replicate 5 'b') ∧
    pyTruncate [' ', 'x'] ≠ claimedPreview [' ', 'x'] := by
  exact ⟨by decide, by decide⟩

/-- C2 (amended): the preview collapses the body by splitting on whitespace
and rejoining with single spaces (dropping leading/trailing whitespace); a
collapsed text of length at most 200 is shown in full, a longer one is cut
to 200 characters, stripped of trailing whitespace, and `" ..."` is
appended. -/
theorem truncate_amended_preview (s : List Char) :
    pyTruncate s = amendedPreview s := by
  by_cases h : s = []
  · subst h
    decide
  · unfold pyTruncate amendedPreview pyCollapse
    rw [if_neg h]

theorem nonblank_cons (n : List Char) (rest : List (List Char)) :
    nonblank (n :: rest) =
      if pyStrip n = [] then nonblank rest else pyStrip n :: nonblank rest := by
  unfold nonblank
  simp only [List.map_cons, List.filter_cons]
  by_cases h : pyStrip n = []
  · simp [h]
  · simp [h]

theorem fetch_multiple_ok {ε : Type} (reddit : RedditClient ε) (sort : List Char)
    (limit : Int) (f : List Char → List Post) :
    ∀ names : List (List Char),
      (∀ n ∈ nonblank names, fetch_posts reddit n sort limit = Except.ok (f n)) →
      fetch_posts_from_multiple reddit names sort limit =
        Except.ok ((nonblank names).flatMap f) := by
  intro names
  induction names with
  | nil => intro _; rfl
  | cons n rest ih =>
    intro h
    by_cases hn : pyStrip n = []
    · have h' : ∀ m ∈ nonblank rest, fetch_posts reddit m sort limit = Except.ok (f m) :=
        fun m hm => h m (by rw [nonblank_cons, if_pos hn]; exact hm)
      simp only [fetch_posts_from_multiple, if_pos hn, nonblank_cons]
      exact ih h'
    · have hhead : fetch_posts reddit (pyStrip n) sort limit = Except.ok (f (pyStrip n)) :=
        h _ (by rw [nonblank_cons, if_neg hn]; exact List.mem_cons_self _ _)
      have h' : ∀ m ∈ nonblank rest, fetch_posts reddit m sort limit = Except.ok (f m) :=
        fun m hm => h m (by rw [nonblank_cons, if_neg hn]; exact List.mem_cons_of_mem _ hm)
      simp only [fetch_posts_from_multiple, if_neg hn, nonblank_cons]
      rw [hhead, ih h']
      simp [List.flatMap_cons]

theorem searchLoop_ok {ε : Type} (reddit : RedditClient ε) (query ssort : List Char)
    (limit : Int) (f : List Char → List Post) :
    ∀ names : List (List Char),
      (∀ n ∈ nonblank names, reddit.search n query ssort limit = Except.ok (f n)) →
      searchLoop reddit query names ssort limit =
        Except.ok ((nonblank names).flatMap f) := by
  intro names
  induction names with
  | nil => intro _; rfl
  | cons n rest ih =>
    intro h
    by_cases hn : pyStrip n = []
    · have h' : ∀ m ∈ nonblank rest, reddit.search m query ssort limit = Except.ok (f m) :=
        fun m hm => h m (by rw [nonblank_cons, if_pos hn]; exact hm)
      simp only [searchLoop, if_pos hn, nonblank_cons]
      exact ih h'
    · have hhead : reddit.search (pyStrip n) query ssort limit = Except.ok (f (pyStrip n)) :=
        h _ (by rw [nonblank_cons, if_neg hn]; exact List.mem_cons_self _ _)
      have h' : ∀ m ∈ nonblank rest, reddit.search m query ssort limit = Except.ok (f m) :=
        fun m hm => h m (by rw [nonblank_cons, if_neg hn]; exact List.mem_cons_of_mem _ hm)
      simp only [searchLoop, if_neg hn, nonblank_cons]
      rw [hhead, ih h']
      simp [List.flatMap_cons]

/-- C3: multi-community browsing returns the concatenation, in community
order, of the per-community result sequences, and entries that are blank
after trimming are skipped entirely (the fetch over a list equals the fetch
over the list with its blank entries removed). -/
theorem browse_concat_and_blank_skip {ε : Type} (reddit : RedditClient ε)
    (names : List (List Char)) (sort : List Char) (limit : Int) :
    fetch_posts_from_multiple reddit names sort limit =
      fetch_posts_from_multiple reddit (names.filter fun n => pyStrip n ≠ []) sort limit ∧
    ∀ f : List Char → List Post,
      (∀ n ∈ nonblank names, fetch_posts reddit n sort limit = Except.ok (f n)) →
      fetch_posts_from_multiple reddit names sort limit =
        Except.ok ((nonblank names).flatMap f) := by
  constructor
  · induction names with
    | nil => rfl
    | cons n rest ih =>
      by_cases hn : pyStrip n = []
      · simp only [fetch_posts_from_multiple]
        rw [if_pos hn, List.filter_cons, if_neg (by simp [hn])]
        exact ih
      · rw [List.filter_cons, if_pos (by simp [hn])]
        simp only [fetch_posts_from_multiple]
        rw [if_neg hn, if_neg hn, ih]
  · exact fun f h => fetch_multiple_ok reddit sort limit f names h

/-- Witness for C3: a concrete three-community browse with a blank entry. -/
theorem browse_concat_blank_skip_witness :
    fetch_posts_from_multiple okClient [("a").toList, [], ("b").toList] sHot 10 =
      Except.ok ((nonblank [("a").toList, [], ("b").toList]).flatMap
        fun n => [mkPost n]) :=
  (browse_concat_and_blank_skip okClient [("a").toList, [], ("b").toList]
    sHot 10).2 (fun n => [mkPost n]) (by decide)

/-- C5: a sort string outside {hot, new, top, rising} makes the browse
operations behave exactly as with sort "hot", raising no error. -/
theorem browse_invalid_sort_falls_back_to_hot {ε : Type} (reddit : RedditClient ε)
    (names : List (List Char)) (name sort : List Char) (limit : Int)
    (h : sort ∉ ([sHot, sNew, sTop, sRising] : List (List Char))) :
    fetch_posts reddit name sort limit = fetch_posts reddit name sHot limit ∧
    fetch_posts_from_multiple reddit names sort limit =
      fetch_posts_from_multiple reddit names sHot limit := by
  simp only [List.mem_cons, List.not_mem_nil, or_false, not_or] at h
  obtain ⟨h1, h2, h3, h4⟩ := h
  have hfetch : ∀ (m : List Char) (l : Int),
      fetch_posts reddit m sort l = fetch_posts reddit m sHot l := by
    intro m l
    unfold fetch_posts
    rw [if_neg h1, if_neg h2, if_neg h3, if_neg h4, if_pos rfl]
  refine ⟨hfetch name limit, ?_⟩
  induction names with
  | nil => rfl
  | cons n rest ih =>
    simp only [fetch_posts_from_multiple]
    by_cases hn : pyStrip n = []
    · rw [if_pos hn, if_pos hn, ih]
    · rw [if_neg hn, if_neg hn, hfetch (pyStrip n) limit, ih]

/-- Witness for C5 at the sort string "invalid". -/
theorem browse_invalid_sort_witness :
    fetch_posts okClient (("python").toList) (("invalid").toList) 5 =
      fetch_posts okClient (("python").toList) sHot 5 ∧
    fetch_posts_from_multiple okClient [("python").toList] (("invalid").toList) 5 =
      fetch_posts_from_multiple okClient [("python").toList] sHot 5 :=
  browse_invalid_sort_falls_back_to_hot okClient [("python").toList]
    (("python").toList) (("invalid").toList) 5 (by decide)

/-- C6: search resolves a sort outside {relevance, hot, top, new} to
"relevance" silently, and otherwise every per-community search call uses
the requested sort (so a successful run returns the concatenation of the
per-community search results under that sort). -/
theorem search_invalid_sort_falls_back_to_relevance {ε : Type}
    (reddit : RedditClient ε) (query : List Char) (names : List (List Char))
    (sort : List Char) (limit : Int) :
    (sort ∉ searchAllowed →
      search_discussions reddit query names sort limit =
        search_discussions reddit query names sRelevance limit) ∧
    (∀ f : List Char → List Post, sort ∈ searchAllowed →
      (∀ n ∈ nonblank names, reddit.search n query sort limit = Except.ok (f n)) →
      search_discussions reddit query names sort limit =
        Except.ok ((nonblank names).flatMap f)) := by
  constructor
  · intro h
    rw [searchAllowed] at h
    unfold search_discussions
    rw [if_neg h, if_pos (by decide)]
  · intro f hsort hcalls
    rw [searchAllowed] at hsort
    unfold search_discussions
    rw [if_pos hsort]
    exact searchLoop_ok reddit query sort limit f names hcalls

/-- Witness for C6: the invalid sort "best" and the valid sort "hot". -/
theorem search_invalid_sort_witness :
    search_discussions okClient (("q").toList) [("a").toList] (("best").toList) 5 =
      search_discussions okClient (("q").toList) [("a").toList] sRelevance 5 ∧
    search_discussions okClient (("q").toList) [("a").toList] sHot 5 =
      Except.ok ((nonblank [("a").toList]).flatMap fun n => [mkPost n]) := by
  refine ⟨?_, ?_⟩
  · exact (search_invalid_sort_falls_back_to_relevance okClient (("q").toList)
      [("a").toList] (("best").toList) 5).1 (by decide)
  · exact (search_invalid_sort_falls_back_to_relevance okClient (("q").toList)
      [("a").toList] sHot 5).2 (fun n => [mkPost n]) (by decide) (by decide)

/-- C8: an upstream error in any community's retrieval propagates unchanged
to the caller, the retrieval result is then an error (the first raising
community's error), and the pipeline result carries no report lines — the
filter and presentation stages are never reached. -/
theorem upstream_error_propagates_no_partial_report {ε : Type}
    (reddit : RedditClient ε) (wrapFill : List Char → List Char)
    (query : List Char) (names : List (List Char)) (sort : List Char)
    (limit : Int) (keywords : List (List Char)) :
    (∀ e : ε, fetch_posts_from_multiple reddit names sort limit = Except.error e →
      browse_pipeline reddit wrapFill names sort limit keywords = Except.error e) ∧
    (∀ e : ε, search_discussions reddit query names sort limit = Except.error e →
      search_pipeline reddit wrapFill query names sort limit keywords = Except.error e) ∧
    ((∃ n ∈ nonblank names, ∃ e : ε, fetch_posts reddit n sort limit = Except.error e) →
      ∃ e : ε, fetch_posts_from_multiple reddit names sort limit = Except.error e ∧
        ∃ n ∈ nonblank names, fetch_posts reddit n sort limit = Except.error e) := by
  refine ⟨?_, ?_, ?_⟩
  · intro e he
    unfold browse_pipeline
    rw [he]
  · intro e he
    unfold search_pipeline
    rw [he]
  · induction names with
    | nil =>
      rintro ⟨m, hm, _⟩
      simp [nonblank] at hm
    | cons n rest ih =>
      rintro ⟨m, hm, e, hme⟩
      by_cases hn : pyStrip n = []
      · rw [nonblank_cons, if_pos hn] at hm
        obtain ⟨e', he', m', hm', hm'e⟩ := ih ⟨m, hm, e, hme⟩
        refine ⟨e', ?_, m', ?_, hm'e⟩
        · simp only [fetch_posts_from_multiple]
          rw [if_pos hn]
          exact he'
        · rw [nonblank_cons, if_pos hn]
          exact hm'
      · rw [nonblank_cons, if_neg hn] at hm
        rcases List.mem_cons.mp hm with rfl | hm'
        · refine ⟨e, ?_, pyStrip n, ?_, hme⟩
          · simp only [fetch_posts_from_multiple]
            rw [if_neg hn, hme]
          · rw [nonblank_cons, if_neg hn]
            exact List.mem_cons_self _ _
        · cases hfetch : fetch_posts reddit (pyStrip n) sort limit with
          | error e0 =>
            refine ⟨e0, ?_, pyStrip n, ?_, hfetch⟩
            · simp only [fetch_posts_from_multiple]
              rw [if_neg hn, hfetch]
            · rw [nonblank_cons, if_neg hn]
              exact List.mem_cons_self _ _
          | ok ps =>
            obtain ⟨e', he', m', hm'', hm'e⟩ := ih ⟨m, hm', e, hme⟩
            refine ⟨e', ?_, m', ?_, hm'e⟩
            · simp only [fetch_posts_from_multiple]
              rw [if_neg hn, hfetch, he']
            · rw [nonblank_cons, if_neg hn]
              exact List.mem_cons_of_mem _ hm''

/-- Witness for C8: every call of `failClient` raises, and the whole browse
pipeline returns that error — no report lines. -/
theorem upstream_error_witness :
    browse_pipeline failClient (fun s => s) [("a").toList] sHot 10 [] =
      Except.error (("boom").toList) ∧
    fetch_posts_from_multiple failClient [("a").toList] sHot 10 =
      Except.error (("boom").toList) := by
  have hfmm : fetch_posts_from_multiple failClient [("a").toList] sHot 10 =
      Except.error (("boom").toList) := by decide
  exact ⟨(upstream_error_propagates_no_partial_report failClient (fun s => s)
    (("q").toList) [("a").toList] sHot 10 []).1 (("boom").toList) hfmm, hfmm⟩

theorem dropWhile_length_le (p : Char → Bool) (l : List Char) :
    (l.dropWhile p).length ≤ l.length := by
  induction l with
  | nil => simp [List.dropWhile]
  | cons c rest ih =>
    rw [List.dropWhile_cons]
    by_cases h : p c = true
    · rw [if_pos h]
      exact Nat.le_succ_of_le ih
    · rw [if_neg h]

theorem pyRstrip_length_le (l : List Char) : (pyRstrip l).length ≤ l.length := by
  unfold pyRstrip
  rw [List.length_reverse]
  calc (l.reverse.dropWhile pyIsSpace).length
      ≤ l.reverse.length := dropWhile_length_le _ _
    _ = l.length := List.length_reverse _

theorem splitAux_all_space :
    ∀ s : List Char, (∀ c ∈ s, pyIsSpace c = true) → splitAux s [] = [] := by
  intro s
  induction s with
  | nil => intro _; rfl
  | cons c rest ih =>
    intro h
    have hc : pyIsSpace c = true := h c (List.mem_cons_self _ _)
    simp only [splitAux, hc, if_true, if_pos rfl]
    exact ih fun c' hc' => h c' (List.mem_cons_of_mem _ hc')

theorem pyTruncate_all_space (s : List Char) (h : ∀ c ∈ s, pyIsSpace c = true) :
    pyTruncate s = [] := by
  unfold pyTruncate
  by_cases hs : s = []
  · rw [if_pos hs]
  · rw [if_neg hs]
    have hcol : pyCollapse s = [] := by
      unfold pyCollapse pySplit
      rw [splitAux_all_space s h]
      rfl
    simp [hcol]

/-- C9: the body preview never exceeds `BODY_PREVIEW_LENGTH + 4` characters
(the `" ..."` suffix included); an empty or whitespace-only body yields the
empty preview, and the post's display block then contains no preview line —
only the six metadata lines and the separator. -/
theorem truncate_bounds_and_empty_preview :
    (∀ s : List Char, (pyTruncate s).length ≤ BODY_PREVIEW_LENGTH + 4) ∧
    (∀ s : List Char, (∀ c ∈ s, pyIsSpace c = true) → pyTruncate s = []) ∧
    (∀ (wrapFill : List Char → List Char) (idx : Nat) (post : Post),
      (∀ c ∈ bodyText post, pyIsSpace c = true) →
      postBlock wrapFill idx post =
        [titleLine idx post, subLine post, authorLine post, scoreLine post,
         dateLine post, linkLine post, sepLine]) := by
  refine ⟨?_, fun s h => pyTruncate_all_space s h, ?_⟩
  · intro s
    unfold pyTruncate
    by_cases hs : s = []
    · rw [if_pos hs]
      simp
    · rw [if_neg hs]
      show (if (pyCollapse s).length ≤ BODY_PREVIEW_LENGTH then pyCollapse s
        else pyRstrip ((pyCollapse s).take BODY_PREVIEW_LENGTH) ++ (" ...").toList).length
        ≤ BODY_PREVIEW_LENGTH + 4
      by_cases hlen : (pyCollapse s).length ≤ BODY_PREVIEW_LENGTH
      · rw [if_pos hlen]
        exact le_trans hlen (Nat.le_add_right _ _)
      · rw [if_neg hlen, List.length_append]
        have h1 : (pyRstrip ((pyCollapse s).take BODY_PREVIEW_LENGTH)).length
            ≤ BODY_PREVIEW_LENGTH :=
          le_trans (pyRstrip_length_le _) (List.length_take_le _ _)
        have h2 : ((" ...").toList).length = 4 := rfl
        omega
  · intro wrapFill idx post h
    unfold postBlock
    simp [pyTruncate_all_space (bodyText post) h]

/-- Witness for C9: a whitespace-only body yields no preview line. -/
theorem truncate_bounds_witness :
    pyTruncate (("   ").toList) = [] ∧
    postBlock (fun s => s) 1 blankBodyPost =
      [titleLine 1 blankBodyPost, subLine blankBodyPost, authorLine blankBodyPost,
       scoreLine blankBodyPost, dateLine blankBodyPost, linkLine blankBodyPost,
       sepLine] := by
  refine ⟨?_, ?_⟩
  · exact truncate_bounds_and_empty_preview.2.1 (("   ").toList) (by decide)
  · exact truncate_bounds_and_empty_preview.2.2 (fun s => s) 1 blankBodyPost (by decide)

/-- C10: with a community list that is empty or all-blank after trimming,
browse and search return the empty sequence for every client — including a
client whose every call raises, so no client call is ever performed. -/
theorem blank_communities_no_client_calls {ε : Type} (reddit : RedditClient ε)
    (query sort : List Char) (names : List (List Char)) (limit : Int)
    (h : ∀ n ∈ names, pyStrip n = []) :
    fetch_posts_from_multiple reddit names sort limit = Except.ok [] ∧
    search_discussions reddit query names sort limit = Except.ok [] := by
  have hfmm : ∀ ns : List (List Char), (∀ n ∈ ns, pyStrip n = []) →
      fetch_posts_from_multiple reddit ns sort limit = Except.ok [] := by
    intro ns
    induction ns with
    | nil => intro _; rfl
    | cons n rest ih =>
      intro hh
      simp only [fetch_posts_from_multiple]
      rw [if_pos (hh n (List.mem_cons_self _ _))]
      exact ih fun m hm => hh m (List.mem_cons_of_mem _ hm)
  have hloop : ∀ (ss : List Char) (ns : List (List Char)),
      (∀ n ∈ ns, pyStrip n = []) →
      searchLoop reddit query ns ss limit = Except.ok [] := by
    intro ss ns
    induction ns with
    | nil => intro _; rfl
    | cons n rest ih =>
      intro hh
      simp only [searchLoop]
      rw [if_pos (hh n (List.mem_cons_self _ _))]
      exact ih fun m hm => hh m (List.mem_cons_of_mem _ hm)
  refine ⟨hfmm names h, ?_⟩
  unfold search_discussions
  exact hloop _ names h

/-- Witness for C10: an all-blank list against the always-raising client
still returns `ok []` — no call reached the client. -/
theorem blank_communities_witness :
    fetch_posts_from_multiple failClient [[], ("  ").toList] sHot 10 =
      Except.ok [] ∧
    search_discussions failClient (("q").toList) [[], ("  ").toList] sHot 10 =
      Except.ok [] :=
  blank_communities_no_client_calls failClient (("q").toList) sHot
    [[], ("  ").toList] 10 (by decide)
